import Mathlib

/-!
Verification of the join-semantics registry (`src/Core/Joins.h`):
closed enumerations describing JOIN kind, strictness, locality, ASOF
inequality, algorithm and table side, together with their predicates,
reversal transforms, name lookup, and binary (de)serialization.

Enumerations and the function bodies present in the header are embedded
directly from the source.  Functions that are only declared in the header
(their bodies live in a translation unit outside the supplied sources) are
modelled from the specification; each such definition carries a doc comment
starting with `Modelled from the spec:`.
-/

namespace Joins

/-- Embeds `enum class JoinKind : uint8_t` — which side of the JOIN is preserved. -/
inductive JoinKind : Type
  | Inner
  | Left
  | Right
  | Full
  | Cross
  | Comma
  | Paste
deriving DecidableEq, Repr

/-- Embeds `enum class JoinStrictness : uint8_t` — match-multiplicity policy. -/
inductive JoinStrictness : Type
  | Unspecified
  | RightAny
  | Any
  | All
  | Asof
  | Semi
  | Anti
deriving DecidableEq, Repr

/-- Embeds `enum class JoinLocality : uint8_t` — distributed execution placement. -/
inductive JoinLocality : Type
  | Unspecified
  | Local
  | Global
deriving DecidableEq, Repr

/-- Embeds `enum class ASOFJoinInequality : uint8_t` — ASOF JOIN inequality type. -/
inductive ASOFJoinInequality : Type
  | None
  | Less
  | Greater
  | LessOrEquals
  | GreaterOrEquals
deriving DecidableEq, Repr

/-- Embeds `enum class JoinAlgorithm : uint8_t` — physical execution strategy. -/
inductive JoinAlgorithm : Type
  | DEFAULT
  | AUTO
  | HASH
  | PARTIAL_MERGE
  | PREFER_PARTIAL_MERGE
  | PARALLEL_HASH
  | GRACE_HASH
  | DIRECT
  | FULL_SORTING_MERGE
deriving DecidableEq, Repr

/-- Embeds `enum class JoinTableSide : uint8_t` — left vs right operand tag. -/
inductive JoinTableSide : Type
  | Left
  | Right
deriving DecidableEq, Repr

instance : Fintype JoinKind :=
  ⟨⟨{.Inner, .Left, .Right, .Full, .Cross, .Comma, .Paste}, by decide⟩,
    by intro x; cases x <;> decide⟩

instance : Fintype JoinStrictness :=
  ⟨⟨{.Unspecified, .RightAny, .Any, .All, .Asof, .Semi, .Anti}, by decide⟩,
    by intro x; cases x <;> decide⟩

instance : Fintype JoinLocality :=
  ⟨⟨{.Unspecified, .Local, .Global}, by decide⟩,
    by intro x; cases x <;> decide⟩

instance : Fintype ASOFJoinInequality :=
  ⟨⟨{.None, .Less, .Greater, .LessOrEquals, .GreaterOrEquals}, by decide⟩,
    by intro x; cases x <;> decide⟩

instance : Fintype JoinAlgorithm :=
  ⟨⟨{.DEFAULT, .AUTO, .HASH, .PARTIAL_MERGE, .PREFER_PARTIAL_MERGE,
     .PARALLEL_HASH, .GRACE_HASH, .DIRECT, .FULL_SORTING_MERGE}, by decide⟩,
    by intro x; cases x <;> decide⟩

instance : Fintype JoinTableSide :=
  ⟨⟨{.Left, .Right}, by decide⟩, by intro x; cases x <;> decide⟩

/-- Embeds `constexpr bool isLeft(JoinKind kind)` — `kind == JoinKind::Left`. -/
def isLeft (kind : JoinKind) : Bool := kind == JoinKind.Left

/-- Embeds `constexpr bool isRight(JoinKind kind)` — `kind == JoinKind::Right`. -/
def isRight (kind : JoinKind) : Bool := kind == JoinKind.Right

/-- Embeds `constexpr bool isInner(JoinKind kind)` — `kind == JoinKind::Inner`. -/
def isInner (kind : JoinKind) : Bool := kind == JoinKind.Inner

/-- Embeds `constexpr bool isFull(JoinKind kind)` — `kind == JoinKind::Full`. -/
def isFull (kind : JoinKind) : Bool := kind == JoinKind.Full

/-- Embeds `constexpr bool isOuter(JoinKind kind)` — Left, Right or Full. -/
def isOuter (kind : JoinKind) : Bool :=
  kind == JoinKind.Left || kind == JoinKind.Right || kind == JoinKind.Full

/-- Embeds `constexpr bool isCrossOrComma(JoinKind kind)` — Comma or Cross. -/
def isCrossOrComma (kind : JoinKind) : Bool :=
  kind == JoinKind.Comma || kind == JoinKind.Cross

/-- Embeds `constexpr bool isRightOrFull(JoinKind kind)` — Right or Full. -/
def isRightOrFull (kind : JoinKind) : Bool :=
  kind == JoinKind.Right || kind == JoinKind.Full

/-- Embeds `constexpr bool isLeftOrFull(JoinKind kind)` — Left or Full. -/
def isLeftOrFull (kind : JoinKind) : Bool :=
  kind == JoinKind.Left || kind == JoinKind.Full

/-- Embeds `constexpr bool isInnerOrRight(JoinKind kind)` — Inner or Right. -/
def isInnerOrRight (kind : JoinKind) : Bool :=
  kind == JoinKind.Inner || kind == JoinKind.Right

/-- Embeds `constexpr bool isInnerOrLeft(JoinKind kind)` — Inner or Left. -/
def isInnerOrLeft (kind : JoinKind) : Bool :=
  kind == JoinKind.Inner || kind == JoinKind.Left

/-- Embeds `constexpr bool isPaste(JoinKind kind)` — `kind == JoinKind::Paste`. -/
def isPaste (kind : JoinKind) : Bool := kind == JoinKind.Paste

/-- Embeds `constexpr ASOFJoinInequality getASOFJoinInequality(std::string_view func_name)`:
starts from `None` and overwrites it on an exact match of the function name. -/
def getASOFJoinInequality (func_name : String) : ASOFJoinInequality :=
  if func_name = "less" then ASOFJoinInequality.Less
  else if func_name = "greater" then ASOFJoinInequality.Greater
  else if func_name = "lessOrEquals" then ASOFJoinInequality.LessOrEquals
  else if func_name = "greaterOrEquals" then ASOFJoinInequality.GreaterOrEquals
  else ASOFJoinInequality.None

/-- Embeds `constexpr ASOFJoinInequality reverseASOFJoinInequality(ASOFJoinInequality)`:
chain of equality tests swapping Less↔Greater and LessOrEquals↔GreaterOrEquals. -/
def reverseASOFJoinInequality (inequality : ASOFJoinInequality) : ASOFJoinInequality :=
  if inequality = ASOFJoinInequality.Less then ASOFJoinInequality.Greater
  else if inequality = ASOFJoinInequality.Greater then ASOFJoinInequality.Less
  else if inequality = ASOFJoinInequality.LessOrEquals then ASOFJoinInequality.GreaterOrEquals
  else if inequality = ASOFJoinInequality.GreaterOrEquals then ASOFJoinInequality.LessOrEquals
  else ASOFJoinInequality.None

/-- Modelled from the spec: `reverseJoinKind` (declared in the header, body in a
translation unit outside the supplied sources) — Left↔Right swap; Inner, Full,
Cross, Comma, Paste are fixed points. -/
def reverseJoinKind (kind : JoinKind) : JoinKind :=
  match kind with
  | JoinKind.Left => JoinKind.Right
  | JoinKind.Right => JoinKind.Left
  | k => k

/-- Numeric discriminant of each `JoinKind` variant, following the declared
order of the `enum class` (`uint8_t`, first variant 0). -/
def joinKindValue : JoinKind → Nat
  | JoinKind.Inner => 0
  | JoinKind.Left => 1
  | JoinKind.Right => 2
  | JoinKind.Full => 3
  | JoinKind.Cross => 4
  | JoinKind.Comma => 5
  | JoinKind.Paste => 6

/-- Numeric discriminant of each `JoinStrictness` variant, following the
declared order of the `enum class`. -/
def joinStrictnessValue : JoinStrictness → Nat
  | JoinStrictness.Unspecified => 0
  | JoinStrictness.RightAny => 1
  | JoinStrictness.Any => 2
  | JoinStrictness.All => 3
  | JoinStrictness.Asof => 4
  | JoinStrictness.Semi => 5
  | JoinStrictness.Anti => 6

/-- Numeric discriminant of each `JoinLocality` variant, following the
declared order of the `enum class`. -/
def joinLocalityValue : JoinLocality → Nat
  | JoinLocality.Unspecified => 0
  | JoinLocality.Local => 1
  | JoinLocality.Global => 2

/-- Numeric discriminant of each `JoinAlgorithm` variant; the source assigns
`DEFAULT = 0` explicitly and the rest follow in declared order. -/
def joinAlgorithmValue : JoinAlgorithm → Nat
  | JoinAlgorithm.DEFAULT => 0
  | JoinAlgorithm.AUTO => 1
  | JoinAlgorithm.HASH => 2
  | JoinAlgorithm.PARTIAL_MERGE => 3
  | JoinAlgorithm.PREFER_PARTIAL_MERGE => 4
  | JoinAlgorithm.PARALLEL_HASH => 5
  | JoinAlgorithm.GRACE_HASH => 6
  | JoinAlgorithm.DIRECT => 7
  | JoinAlgorithm.FULL_SORTING_MERGE => 8

/-- Partial inverse of `joinKindValue`: the variant with the given
discriminant, or `none` when the value is outside the declared range 0..6. -/
def joinKindOfValue (b : Nat) : Option JoinKind :=
  if b = 0 then some JoinKind.Inner
  else if b = 1 then some JoinKind.Left
  else if b = 2 then some JoinKind.Right
  else if b = 3 then some JoinKind.Full
  else if b = 4 then some JoinKind.Cross
  else if b = 5 then some JoinKind.Comma
  else if b = 6 then some JoinKind.Paste
  else none

/-- Partial inverse of `joinStrictnessValue` (declared range 0..6). -/
def joinStrictnessOfValue (b : Nat) : Option JoinStrictness :=
  if b = 0 then some JoinStrictness.Unspecified
  else if b = 1 then some JoinStrictness.RightAny
  else if b = 2 then some JoinStrictness.Any
  else if b = 3 then some JoinStrictness.All
  else if b = 4 then some JoinStrictness.Asof
  else if b = 5 then some JoinStrictness.Semi
  else if b = 6 then some JoinStrictness.Anti
  else none

/-- Partial inverse of `joinLocalityValue` (declared range 0..2). -/
def joinLocalityOfValue (b : Nat) : Option JoinLocality :=
  if b = 0 then some JoinLocality.Unspecified
  else if b = 1 then some JoinLocality.Local
  else if b = 2 then some JoinLocality.Global
  else none

/-- Outcome of a failed decode, per the spec's error taxonomy. -/
inductive DecodeError : Type
  | streamExhausted
  | unknownDiscriminant
deriving DecidableEq, Repr

/-- Modelled from the spec: `serializeJoinKind(JoinKind, WriteBuffer &)`
(declared in the header, body outside the supplied sources) — appends the
single-byte discriminant of the variant to the output stream, modelled as a
list of byte values. -/
def serializeJoinKind (kind : JoinKind) (out : List Nat) : List Nat :=
  out ++ [joinKindValue kind]

/-- Modelled from the spec: `deserializeJoinKind(ReadBuffer &)` — reads the
single-byte discriminant and reconstructs the variant; fails with a decoding
error when the stream is exhausted or the byte matches no declared variant
(never silently defaults). Returns the variant and the remaining stream. -/
def deserializeJoinKind (input : List Nat) : Except DecodeError (JoinKind × List Nat) :=
  match input with
  | [] => Except.error DecodeError.streamExhausted
  | b :: rest =>
    match joinKindOfValue b with
    | some kind => Except.ok (kind, rest)
    | none => Except.error DecodeError.unknownDiscriminant

/-- Modelled from the spec: `serializeJoinStrictness(JoinStrictness, WriteBuffer &)`
— appends the single-byte discriminant to the output stream. -/
def serializeJoinStrictness (strictness : JoinStrictness) (out : List Nat) : List Nat :=
  out ++ [joinStrictnessValue strictness]

/-- Modelled from the spec: `deserializeJoinStrictness(ReadBuffer &)` — reads
the discriminant; fails with a decoding error on exhaustion or an undeclared
value. -/
def deserializeJoinStrictness (input : List Nat) : Except DecodeError (JoinStrictness × List Nat) :=
  match input with
  | [] => Except.error DecodeError.streamExhausted
  | b :: rest =>
    match joinStrictnessOfValue b with
    | some strictness => Except.ok (strictness, rest)
    | none => Except.error DecodeError.unknownDiscriminant

/-- Modelled from the spec: `serializeJoinLocality(JoinLocality, WriteBuffer &)`
— appends the single-byte discriminant to the output stream. -/
def serializeJoinLocality (locality : JoinLocality) (out : List Nat) : List Nat :=
  out ++ [joinLocalityValue locality]

/-- Modelled from the spec: `deserializeJoinLocality(ReadBuffer &)` — reads
the discriminant; fails with a decoding error on exhaustion or an undeclared
value. -/
def deserializeJoinLocality (input : List Nat) : Except DecodeError (JoinLocality × List Nat) :=
  match input with
  | [] => Except.error DecodeError.streamExhausted
  | b :: rest =>
    match joinLocalityOfValue b with
    | some locality => Except.ok (locality, rest)
    | none => Except.error DecodeError.unknownDiscriminant

/-- Modelled from the spec: `const char * toString(JoinKind)` (declared in the
header, body outside the supplied sources) — a distinct, non-empty, stable
display name per variant. -/
def toStringJoinKind : JoinKind → String
  | JoinKind.Inner => "Inner"
  | JoinKind.Left => "Left"
  | JoinKind.Right => "Right"
  | JoinKind.Full => "Full"
  | JoinKind.Cross => "Cross"
  | JoinKind.Comma => "Comma"
  | JoinKind.Paste => "Paste"

/-- Modelled from the spec: `const char * toString(JoinStrictness)` — a
distinct, non-empty, stable display name per variant. -/
def toStringJoinStrictness : JoinStrictness → String
  | JoinStrictness.Unspecified => "Unspecified"
  | JoinStrictness.RightAny => "RightAny"
  | JoinStrictness.Any => "Any"
  | JoinStrictness.All => "All"
  | JoinStrictness.Asof => "Asof"
  | JoinStrictness.Semi => "Semi"
  | JoinStrictness.Anti => "Anti"

/-- Modelled from the spec: `const char * toString(JoinLocality)` — a
distinct, non-empty, stable display name per variant. -/
def toStringJoinLocality : JoinLocality → String
  | JoinLocality.Unspecified => "Unspecified"
  | JoinLocality.Local => "Local"
  | JoinLocality.Global => "Global"

/-- Modelled from the spec: `const char * toString(ASOFJoinInequality)` — a
distinct, non-empty, stable display name per variant. -/
def toStringASOFJoinInequality : ASOFJoinInequality → String
  | ASOFJoinInequality.None => "None"
  | ASOFJoinInequality.Less => "Less"
  | ASOFJoinInequality.Greater => "Greater"
  | ASOFJoinInequality.LessOrEquals => "LessOrEquals"
  | ASOFJoinInequality.GreaterOrEquals => "GreaterOrEquals"

/-- Modelled from the spec: `const char * toString(JoinAlgorithm)` — a
distinct, non-empty, stable display name per variant. -/
def toStringJoinAlgorithm : JoinAlgorithm → String
  | JoinAlgorithm.DEFAULT => "default"
  | JoinAlgorithm.AUTO => "auto"
  | JoinAlgorithm.HASH => "hash"
  | JoinAlgorithm.PARTIAL_MERGE => "partial_merge"
  | JoinAlgorithm.PREFER_PARTIAL_MERGE => "prefer_partial_merge"
  | JoinAlgorithm.PARALLEL_HASH => "parallel_hash"
  | JoinAlgorithm.GRACE_HASH => "grace_hash"
  | JoinAlgorithm.DIRECT => "direct"
  | JoinAlgorithm.FULL_SORTING_MERGE => "full_sorting_merge"

/-- Modelled from the spec: `const char * toString(JoinTableSide)` — a
distinct, non-empty, stable display name per variant. -/
def toStringJoinTableSide : JoinTableSide → String
  | JoinTableSide.Left => "left"
  | JoinTableSide.Right => "right"

/-- Helper: every discriminant at or above 7 is outside the declared range of
`JoinKind`, so the partial inverse rejects it. -/
lemma joinKindOfValue_out_of_range (b : Nat) (hb : 7 ≤ b) :
    joinKindOfValue b = none := by
  unfold joinKindOfValue
  rw [if_neg (by omega), if_neg (by omega), if_neg (by omega), if_neg (by omega),
    if_neg (by omega), if_neg (by omega), if_neg (by omega)]

/-- Helper: every discriminant at or above 7 is outside the declared range of
`JoinStrictness`, so the partial inverse rejects it. -/
lemma joinStrictnessOfValue_out_of_range (b : Nat) (hb : 7 ≤ b) :
    joinStrictnessOfValue b = none := by
  unfold joinStrictnessOfValue
  rw [if_neg (by omega), if_neg (by omega), if_neg (by omega), if_neg (by omega),
    if_neg (by omega), if_neg (by omega), if_neg (by omega)]

/-- Helper: every discriminant at or above 3 is outside the declared range of
`JoinLocality`, so the partial inverse rejects it. -/
lemma joinLocalityOfValue_out_of_range (b : Nat) (hb : 3 ≤ b) :
    joinLocalityOfValue b = none := by
  unfold joinLocalityOfValue
  rw [if_neg (by omega), if_neg (by omega), if_neg (by omega)]

/-- C1. Serialization round-trip: for every variant of every serialized
enumeration (JoinKind, JoinStrictness, JoinLocality), deserializing the
stream produced by serializing the variant yields the variant again, with
the rest of the stream untouched. -/
theorem C1_serialization_round_trip :
    (∀ (k : JoinKind) (rest : List Nat),
      deserializeJoinKind (serializeJoinKind k [] ++ rest) = Except.ok (k, rest)) ∧
    (∀ (s : JoinStrictness) (rest : List Nat),
      deserializeJoinStrictness (serializeJoinStrictness s [] ++ rest) = Except.ok (s, rest)) ∧
    (∀ (l : JoinLocality) (rest : List Nat),
      deserializeJoinLocality (serializeJoinLocality l [] ++ rest) = Except.ok (l, rest)) := by
  refine ⟨?_, ?_, ?_⟩ <;> intro v rest <;> cases v <;> rfl

/-- C2. Involution of the reversal transforms: `reverseJoinKind` and
`reverseASOFJoinInequality` each return the original value when applied
twice, for every input. -/
theorem C2_reverse_involution :
    (∀ k : JoinKind, reverseJoinKind (reverseJoinKind k) = k) ∧
    (∀ i : ASOFJoinInequality,
      reverseASOFJoinInequality (reverseASOFJoinInequality i) = i) := by
  refine ⟨?_, ?_⟩ <;> intro v <;> cases v <;> rfl

/-- C3. Exact reversal mapping: `reverseJoinKind` swaps Left↔Right and fixes
Inner, Full, Cross, Comma, Paste; `reverseASOFJoinInequality` swaps
Less↔Greater and LessOrEquals↔GreaterOrEquals and fixes None. -/
theorem C3_reverse_mapping :
    reverseJoinKind JoinKind.Left = JoinKind.Right ∧
    reverseJoinKind JoinKind.Right = JoinKind.Left ∧
    reverseJoinKind JoinKind.Inner = JoinKind.Inner ∧
    reverseJoinKind JoinKind.Full = JoinKind.Full ∧
    reverseJoinKind JoinKind.Cross = JoinKind.Cross ∧
    reverseJoinKind JoinKind.Comma = JoinKind.Comma ∧
    reverseJoinKind JoinKind.Paste = JoinKind.Paste ∧
    reverseASOFJoinInequality ASOFJoinInequality.Less = ASOFJoinInequality.Greater ∧
    reverseASOFJoinInequality ASOFJoinInequality.Greater = ASOFJoinInequality.Less ∧
    reverseASOFJoinInequality ASOFJoinInequality.LessOrEquals = ASOFJoinInequality.GreaterOrEquals ∧
    reverseASOFJoinInequality ASOFJoinInequality.GreaterOrEquals = ASOFJoinInequality.LessOrEquals ∧
    reverseASOFJoinInequality ASOFJoinInequality.None = ASOFJoinInequality.None := by
  refine ⟨rfl, rfl, rfl, rfl, rfl, rfl, rfl, ?_, ?_, ?_, ?_, ?_⟩ <;> rfl

/-- C4. Reverse-lookup correctness and totality: `getASOFJoinInequality`
maps the four recognized comparison-function names to their inequalities and
every other string to None. -/
theorem C4_lookup_correctness :
    getASOFJoinInequality "less" = ASOFJoinInequality.Less ∧
    getASOFJoinInequality "greater" = ASOFJoinInequality.Greater ∧
    getASOFJoinInequality "lessOrEquals" = ASOFJoinInequality.LessOrEquals ∧
    getASOFJoinInequality "greaterOrEquals" = ASOFJoinInequality.GreaterOrEquals ∧
    (∀ s : String, s ≠ "less" → s ≠ "greater" → s ≠ "lessOrEquals" →
      s ≠ "greaterOrEquals" → getASOFJoinInequality s = ASOFJoinInequality.None) := by
  refine ⟨by decide, by decide, by decide, by decide, ?_⟩
  intro s h1 h2 h3 h4
  simp [getASOFJoinInequality, h1, h2, h3, h4]

/-- Witness for C4 at the concrete unrecognized name "unknownFunc". -/
theorem C4_lookup_correctness_witness :
    getASOFJoinInequality "unknownFunc" = ASOFJoinInequality.None :=
  C4_lookup_correctness.2.2.2.2 "unknownFunc"
    (by decide) (by decide) (by decide) (by decide)

/-- C5. Decode rejection: for each serialized enumeration, a discriminant
outside the declared range makes deserialization fail with a decoding error;
the malformed value is never defaulted to some variant. -/
theorem C5_decode_rejection :
    (∀ (b : Nat) (rest : List Nat), 7 ≤ b →
      deserializeJoinKind (b :: rest) = Except.error DecodeError.unknownDiscriminant) ∧
    (∀ (b : Nat) (rest : List Nat), 7 ≤ b →
      deserializeJoinStrictness (b :: rest) = Except.error DecodeError.unknownDiscriminant) ∧
    (∀ (b : Nat) (rest : List Nat), 3 ≤ b →
      deserializeJoinLocality (b :: rest) = Except.error DecodeError.unknownDiscriminant) := by
  refine ⟨?_, ?_, ?_⟩ <;> intro b rest hb
  · simp [deserializeJoinKind, joinKindOfValue_out_of_range b hb]
  · simp [deserializeJoinStrictness, joinStrictnessOfValue_out_of_range b hb]
  · simp [deserializeJoinLocality, joinLocalityOfValue_out_of_range b hb]

/-- Witness for C5 at the concrete out-of-range discriminants 7, 7 and 3. -/
theorem C5_decode_rejection_witness :
    deserializeJoinKind [7] = Except.error DecodeError.unknownDiscriminant ∧
    deserializeJoinStrictness [7] = Except.error DecodeError.unknownDiscriminant ∧
    deserializeJoinLocality [3] = Except.error DecodeError.unknownDiscriminant :=
  ⟨C5_decode_rejection.1 7 [] (by decide),
   C5_decode_rejection.2.1 7 [] (by decide),
   C5_decode_rejection.2.2 3 [] (by decide)⟩

/-- C6. Predicate classification correctness: `isOuter` holds exactly on
Left, Right, Full; `isCrossOrComma` exactly on Cross, Comma; and the four
pairwise-union predicates hold exactly on their respective pairs. -/
theorem C6_predicate_classification :
    ∀ k : JoinKind,
      (isOuter k = true ↔ (k = JoinKind.Left ∨ k = JoinKind.Right ∨ k = JoinKind.Full)) ∧
      (isCrossOrComma k = true ↔ (k = JoinKind.Cross ∨ k = JoinKind.Comma)) ∧
      (isRightOrFull k = true ↔ (k = JoinKind.Right ∨ k = JoinKind.Full)) ∧
      (isLeftOrFull k = true ↔ (k = JoinKind.Left ∨ k = JoinKind.Full)) ∧
      (isInnerOrRight k = true ↔ (k = JoinKind.Inner ∨ k = JoinKind.Right)) ∧
      (isInnerOrLeft k = true ↔ (k = JoinKind.Inner ∨ k = JoinKind.Left)) := by
  decide

/-- C7. Predicate partition consistency: `isOuter` agrees with the
disjunction of `isLeft`, `isRight`, `isFull`, and exactly one of the six
classifying predicates `isLeft`, `isRight`, `isInner`, `isFull`,
`isCrossOrComma`, `isPaste` holds for every kind. -/
theorem C7_predicate_partition :
    ∀ k : JoinKind,
      isOuter k = (isLeft k || isRight k || isFull k) ∧
      ([isLeft k, isRight k, isInner k, isFull k,
        isCrossOrComma k, isPaste k].count true = 1) := by
  decide

/-- C8. Naming totality and distinctness: for every enumeration, `toString`
yields a non-empty string on every variant, and two variants of the same
enumeration share a name only when they are equal. -/
theorem C8_naming_totality :
    (∀ a : JoinKind, 0 < (toStringJoinKind a).length) ∧
    (∀ a b : JoinKind, toStringJoinKind a = toStringJoinKind b ↔ a = b) ∧
    (∀ a : JoinStrictness, 0 < (toStringJoinStrictness a).length) ∧
    (∀ a b : JoinStrictness, toStringJoinStrictness a = toStringJoinStrictness b ↔ a = b) ∧
    (∀ a : JoinLocality, 0 < (toStringJoinLocality a).length) ∧
    (∀ a b : JoinLocality, toStringJoinLocality a = toStringJoinLocality b ↔ a = b) ∧
    (∀ a : ASOFJoinInequality, 0 < (toStringASOFJoinInequality a).length) ∧
    (∀ a b : ASOFJoinInequality,
      toStringASOFJoinInequality a = toStringASOFJoinInequality b ↔ a = b) ∧
    (∀ a : JoinAlgorithm, 0 < (toStringJoinAlgorithm a).length) ∧
    (∀ a b : JoinAlgorithm, toStringJoinAlgorithm a = toStringJoinAlgorithm b ↔ a = b) ∧
    (∀ a : JoinTableSide, 0 < (toStringJoinTableSide a).length) ∧
    (∀ a b : JoinTableSide, toStringJoinTableSide a = toStringJoinTableSide b ↔ a = b) := by
  decide

/-- C9. Wire-format numbering: the serialized discriminant of every variant
is exactly its declared numeric value, and those values follow declaration
order: JoinKind Inner=0..Paste=6, JoinStrictness Unspecified=0..Anti=6,
JoinLocality Unspecified=0..Global=2, JoinAlgorithm DEFAULT=0..FULL_SORTING_MERGE=8. -/
theorem C9_wire_format_numbering :
    (∀ k : JoinKind, serializeJoinKind k [] = [joinKindValue k]) ∧
    (∀ s : JoinStrictness, serializeJoinStrictness s [] = [joinStrictnessValue s]) ∧
    (∀ l : JoinLocality, serializeJoinLocality l [] = [joinLocalityValue l]) ∧
    joinKindValue JoinKind.Inner = 0 ∧ joinKindValue JoinKind.Left = 1 ∧
    joinKindValue JoinKind.Right = 2 ∧ joinKindValue JoinKind.Full = 3 ∧
    joinKindValue JoinKind.Cross = 4 ∧ joinKindValue JoinKind.Comma = 5 ∧
    joinKindValue JoinKind.Paste = 6 ∧
    joinStrictnessValue JoinStrictness.Unspecified = 0 ∧
    joinStrictnessValue JoinStrictness.RightAny = 1 ∧
    joinStrictnessValue JoinStrictness.Any = 2 ∧
    joinStrictnessValue JoinStrictness.All = 3 ∧
    joinStrictnessValue JoinStrictness.Asof = 4 ∧
    joinStrictnessValue JoinStrictness.Semi = 5 ∧
    joinStrictnessValue JoinStrictness.Anti = 6 ∧
    joinLocalityValue JoinLocality.Unspecified = 0 ∧
    joinLocalityValue JoinLocality.Local = 1 ∧
    joinLocalityValue JoinLocality.Global = 2 ∧
    joinAlgorithmValue JoinAlgorithm.DEFAULT = 0 ∧
    joinAlgorithmValue JoinAlgorithm.FULL_SORTING_MERGE = 8 := by
  decide

/-- C10. Recognition in `getASOFJoinInequality` is exact, case-sensitive
string equality: the result differs from None exactly on the four recognized
names, and in particular "Less", "LESS", "less " and "lessorequals" all map
to None. -/
theorem C10_exact_case_sensitive_match :
    (∀ s : String,
      getASOFJoinInequality s ≠ ASOFJoinInequality.None ↔
        (s = "less" ∨ s = "greater" ∨ s = "lessOrEquals" ∨ s = "greaterOrEquals")) ∧
    getASOFJoinInequality "Less" = ASOFJoinInequality.None ∧
    getASOFJoinInequality "LESS" = ASOFJoinInequality.None ∧
    getASOFJoinInequality "less " = ASOFJoinInequality.None ∧
    getASOFJoinInequality "lessorequals" = ASOFJoinInequality.None := by
  refine ⟨?_, by decide, by decide, by decide, by decide⟩
  intro s
  unfold getASOFJoinInequality
  split_ifs <;> simp_all

end Joins
